import Mathlib

/-!
Verification development for the MissEp reconciliation engine.

The definitions below are a shallow embedding of the Python sources:
  * `src/utils/helpers.py`  — filename parser, cache record, cache store
  * `src/main.py`           — per-show diff of local inventory vs canonical structure
  * `src/media_manager/moviepilot.py` — remediation dispatcher
  * `src/tmdb/api.py`       — catalog search selection policy

Machine strings are `List Char` / `String`; Python regular-expression
searches are embedded as explicit leftmost-match scanners specialised to the
concrete patterns appearing in the source (Python `\d` and `\s` are modelled
over their ASCII ranges).  Fallible operations return `Option`.
-/

namespace MissEp

/-! ## Filename parser (src/utils/helpers.py, `parse_filename`) -/

/-- Python `\d` digit test (ASCII). -/
def isDig (c : Char) : Bool := c.isDigit

/-- Numeric value of a digit character, as produced by Python `int` on it. -/
def dval (c : Char) : Nat := c.toNat - '0'.toNat

/-- Python `\s` whitespace test (ASCII range). -/
def isSpace (c : Char) : Bool :=
  c = ' ' || c = '\t' || c = '\n' || c = '\r' || c = '\x0b' || c = '\x0c'

/-- `[sS]`, also produced by `re.IGNORECASE` on a literal `s`. -/
def isS (c : Char) : Bool := c = 's' || c = 'S'

/-- `[eE]`. -/
def isE (c : Char) : Bool := c = 'e' || c = 'E'

/-- `x` under `re.IGNORECASE`. -/
def isX (c : Char) : Bool := c = 'x' || c = 'X'

/-- Trailing group `(\d{1,2})` with nothing after it: greedily takes two
digits when available, else one.  Returns the captured value. -/
def grab2 : List Char → Option Nat
  | c1 :: c2 :: _ =>
    if isDig c1 then
      some (if isDig c2 then dval c1 * 10 + dval c2 else dval c1)
    else none
  | [c1] => if isDig c1 then some (dval c1) else none
  | [] => none

/-- Matcher for `[sS](\d{1,2})[eE](\d{1,2})` anchored at the head of the
list.  `(\d{1,2})` before `[eE]` is greedy; backtracking from two digits to
one can never succeed because a digit is not `e`/`E`, so the greedy reading
is exact. -/
def p1At : List Char → Option (Nat × Nat)
  | c :: rest =>
    if isS c then
      match rest with
      | a :: b :: r2 =>
        if isDig a && isDig b then
          match r2 with
          | e :: r3 =>
            if isE e then (grab2 r3).map (fun ep => (dval a * 10 + dval b, ep))
            else none
          | [] => none
        else if isDig a && isE b then
          (grab2 r2).map (fun ep => (dval a, ep))
        else none
      | _ => none
    else none
  | [] => none

/-- Case-insensitive literal match (the literal is given lower-case);
returns the remainder on success. -/
def litCI : List Char → List Char → Option (List Char)
  | [], l => some l
  | _ :: _, [] => none
  | t :: ts, c :: cs => if c.toLower = t then litCI ts cs else none

/-- `re.search` at successive start positions: the leftmost match wins. -/
def searchA (f : List Char → Option α) : List Char → Option α
  | [] => f []
  | c :: rest =>
    match f (c :: rest) with
    | some r => some r
    | none => searchA f rest

/-- Lazy `.*?` scan: try the tail matcher at each position, never moving a
start position past a newline (Python `.` does not match `\n`). -/
def lazyScan (f : List Char → Option α) : List Char → Option α
  | [] => f []
  | c :: rest =>
    match f (c :: rest) with
    | some r => some r
    | none => if c = '\n' then none else lazyScan f rest

/-- `[eE]pisode\s*(\d{1,2})` anchored at the head (shared by parser rule 2
and the episode-only second pass). -/
def epVerboseAt (l : List Char) : Option Nat :=
  match litCI ("episode".data) l with
  | some r => grab2 (r.dropWhile isSpace)
  | none => none

/-- Matcher for `[sS]eason\s*(\d{1,2}).*?[eE]pisode\s*(\d{1,2})` anchored at
the head. -/
def p2At (l : List Char) : Option (Nat × Nat) :=
  match litCI ("season".data) l with
  | some r0 =>
    match r0.dropWhile isSpace with
    | a :: b :: r2 =>
      if isDig a && isDig b then
        (lazyScan epVerboseAt r2).map (fun e => (dval a * 10 + dval b, e))
      else if isDig a then
        (lazyScan epVerboseAt (b :: r2)).map (fun e => (dval a, e))
      else none
    | [a] => if isDig a then (lazyScan epVerboseAt []).map (fun e => (dval a, e)) else none
    | [] => none
  | none => none

/-- Matcher for `(\d{1,2})x(\d{1,2})` anchored at the head. -/
def p3At : List Char → Option (Nat × Nat)
  | a :: b :: r2 =>
    if isDig a && isDig b then
      match r2 with
      | x :: r3 =>
        if isX x then (grab2 r3).map (fun e => (dval a * 10 + dval b, e)) else none
      | [] => none
    else if isDig a && isX b then
      (grab2 r2).map (fun e => (dval a, e))
    else none
  | _ => none

/-- `[第](\d{1,2})[集]` anchored at the head (tail of rule 4 and an
episode-only pattern). -/
def epCJKAt : List Char → Option Nat
  | c :: a :: rest =>
    if c = '第' && isDig a then
      match rest with
      | b :: r2 =>
        if isDig b then
          match r2 with
          | j :: _ => if j = '集' then some (dval a * 10 + dval b) else none
          | [] => none
        else if b = '集' then some (dval a)
        else none
      | [] => none
    else none
  | _ => none

/-- Matcher for `[第](\d{1,2})[季].*?[第](\d{1,2})[集]` anchored at the head. -/
def p4At : List Char → Option (Nat × Nat)
  | c :: a :: rest =>
    if c = '第' && isDig a then
      match rest with
      | b :: r2 =>
        if isDig b then
          match r2 with
          | j :: r3 =>
            if j = '季' then (lazyScan epCJKAt r3).map (fun e => (dval a * 10 + dval b, e))
            else none
          | [] => none
        else if b = '季' then
          (lazyScan epCJKAt r2).map (fun e => (dval a, e))
        else none
      | [] => none
    else none
  | _ => none

/-- Delimiter class `[.\s_]` of rule 5. -/
def isDelim5 (c : Char) : Bool := c = '.' || isSpace c || c = '_'

/-- Matcher for `[.\s_](\d{1,2})(\d{2})[.\s_]` anchored at the head.  Here
`(\d{1,2})` genuinely backtracks: two digits are tried first, then one. -/
def p5At : List Char → Option (Nat × Nat)
  | d0 :: a :: b :: c :: d :: rest =>
    if isDelim5 d0 && isDig a && isDig b && isDig c then
      if isDig d && (match rest with | e :: _ => isDelim5 e | [] => false) then
        some (dval a * 10 + dval b, dval c * 10 + dval d)
      else if isDelim5 d then
        some (dval a, dval b * 10 + dval c)
      else none
    else none
  | _ => none

/-- `[eE](\d{1,2})` anchored at the head. -/
def e1At : List Char → Option Nat
  | c :: rest => if isE c then grab2 rest else none
  | [] => none

/-- Bare `(\d{1,2})(?=\.|$|\s+)` anchored at the head. -/
def e4At : List Char → Option Nat
  | a :: rest =>
    if isDig a then
      match rest with
      | b :: r2 =>
        if isDig b then
          match r2 with
          | c :: _ => if c = '.' || isSpace c then some (dval a * 10 + dval b) else none
          | [] => some (dval a * 10 + dval b)
        else if b = '.' || isSpace b then some (dval a)
        else none
      | [] => some (dval a)
    else none
  | [] => none

/-- `filepath.split('/')[-1]`: the final `/`-separated component. -/
def lastComp (l : List Char) : List Char :=
  (l.reverse.takeWhile (fun c => c ≠ '/')).reverse

/-- Core of `parse_filename` applied to the extracted final path component:
the five season+episode rules are tried in order, each by leftmost search;
if none matches and a season hint is known, the four episode-only rules
run. -/
def parse_core (filename : List Char) (known_season : Option Nat) : Option (Nat × Nat) :=
  match searchA p1At filename with
  | some r => some r
  | none =>
  match searchA p2At filename with
  | some r => some r
  | none =>
  match searchA p3At filename with
  | some r => some r
  | none =>
  match searchA p4At filename with
  | some r => some r
  | none =>
  match searchA p5At filename with
  | some r => some r
  | none =>
    match known_season with
    | some k =>
      match searchA e1At filename with
      | some e => some (k, e)
      | none =>
      match searchA epVerboseAt filename with
      | some e => some (k, e)
      | none =>
      match searchA epCJKAt filename with
      | some e => some (k, e)
      | none => (searchA e4At filename).map (fun e => (k, e))
    | none => none

/-- `parse_filename(filepath, known_season)` from `src/utils/helpers.py`. -/
def parse_filename (filepath : String) (known_season : Option Nat) : Option (Nat × Nat) :=
  parse_core (lastComp filepath.data) known_season

/-- `basename`: the final `/`-separated component, as a string. -/
def basename (p : String) : String := ⟨lastComp p.data⟩

/-- Python `sub in s` on character lists. -/
def containsSub : List Char → List Char → Bool
  | pat, [] => pat.isEmpty
  | pat, c :: rest => pat.isPrefixOf (c :: rest) || containsSub pat rest

/-- Value of a digit string, most significant first. -/
def digitsVal (l : List Char) : Nat := l.foldl (fun acc c => acc * 10 + dval c) 0

/-! ## Diff engine (src/main.py, `process_show` lines 119–125)

The local inventory (`local_seasons`, a `defaultdict(set)`) and the canonical
structure (`tmdb_structure`, season → episode list) are modelled as
association lists; the Python code iterates the canonical mapping, forms
`set(canonical[s]) - local[s]` and keeps the sorted difference when it is
non-empty. -/

/-- `local_seasons.get(season, set())`. -/
def lookupEps (l : List (Nat × List Nat)) (s : Nat) : List Nat :=
  match l.find? (fun q => q.1 == s) with
  | some q => q.2
  | none => []

/-- `sorted(list(set(canon) - localE))`. -/
def sortedDiff (canon localE : List Nat) : List Nat :=
  List.insertionSort (· ≤ ·) (canon.dedup.filter (fun e => !(localE.contains e)))

/-- The `missing` mapping built by `process_show`: one entry per canonical
season whose sorted set difference is non-empty. -/
def computeMissing (canonical localI : List (Nat × List Nat)) : List (Nat × List Nat) :=
  canonical.filterMap (fun p =>
    let d := sortedDiff p.2 (lookupEps localI p.1)
    if d = [] then none else some (p.1, d))

/-! ## Cache store (src/utils/helpers.py, `CacheData` / `save_cache` /
`load_cache` / `reset_cache`)

The persisted document is modelled at the JSON-value level: Python's
`json.dumps`/`json.loads` pair is treated as a faithful codec, so a file
either holds a parsed JSON document or raw bytes on which `json.loads`
raises (`FileContent.raw`).  Cache documents range over the shapes the
program itself writes (`complete_dirs` entries `{checked_at, tmdb_id}` and
integer `tmdb_map` values); a document outside that shape makes `load_cache`
return `none`, modelling the type errors the Python code would hit on such
data. -/

/-- JSON values (restricted to the constructors the cache file uses). -/
inductive JVal where
  | null
  | jint (n : Int)
  | jstr (s : String)
  | jobj (fields : List (String × JVal))
deriving Repr

/-- One `complete_dirs` entry: `{"checked_at": ..., "tmdb_id": ...}`. -/
structure CompleteEntry where
  checked_at : String
  tmdb_id : Int
deriving Repr, DecidableEq

/-- The in-memory cache record (`CacheData` dataclass). -/
structure CacheData where
  complete_dirs : List (String × CompleteEntry)
  tmdb_map : List (String × Int)
deriving Repr, DecidableEq

/-- `CacheData.create_empty`. -/
def CacheData.create_empty : CacheData := ⟨[], []⟩

/-- Python `dict` insertion: replace in place when the key exists, else
append. -/
def dictSet (l : List (String × α)) (k : String) (v : α) : List (String × α) :=
  if l.any (fun p => p.1 == k) then
    l.map (fun p => if p.1 == k then (k, v) else p)
  else l ++ [(k, v)]

/-- Python `dict` lookup. -/
def dictGet? (l : List (String × α)) (k : String) : Option α :=
  match l.find? (fun p => p.1 == k) with
  | some p => some p.2
  | none => none

/-- `CacheData.is_complete_dir`: `dir_name in self.complete_dirs`. -/
def CacheData.is_complete_dir (c : CacheData) (dir_name : String) : Bool :=
  c.complete_dirs.any (fun p => p.1 == dir_name)

/-- `CacheData.mark_complete_dir`; `now` stands for the
`time.strftime(...)` timestamp taken at the call. -/
def CacheData.mark_complete_dir (c : CacheData) (dir_name : String) (tmdb_id : Int)
    (now : String) : CacheData :=
  { c with complete_dirs := dictSet c.complete_dirs dir_name ⟨now, tmdb_id⟩ }

/-- `CacheData.add_tmdb_mapping`. -/
def CacheData.add_tmdb_mapping (c : CacheData) (title : String) (tmdb_id : Int) : CacheData :=
  { c with tmdb_map := dictSet c.tmdb_map title tmdb_id }

/-- JSON encoding of one `complete_dirs` entry. -/
def encodeEntry (e : CompleteEntry) : JVal :=
  .jobj [(("checked_at"), .jstr e.checked_at), (("tmdb_id"), .jint e.tmdb_id)]

/-- The document written by `save_cache`:
`{"complete_dirs": {...}, "tmdb_map": {...}}`. -/
def encodeCache (c : CacheData) : JVal :=
  .jobj [(("complete_dirs"), .jobj (c.complete_dirs.map (fun p => (p.1, encodeEntry p.2)))),
         (("tmdb_map"), .jobj (c.tmdb_map.map (fun p => (p.1, JVal.jint p.2))))]

/-- Decode one `complete_dirs` entry. -/
def decodeEntry : JVal → Option CompleteEntry
  | .jobj [(("checked_at"), .jstr ts), (("tmdb_id"), .jint n)] => some ⟨ts, n⟩
  | _ => none

/-- Decode every field of a JSON object through `f`. -/
def decodeFields (f : JVal → Option α) : List (String × JVal) → Option (List (String × α))
  | [] => some []
  | (k, v) :: rest =>
    match f v, decodeFields f rest with
    | some a, some l => some ((k, a) :: l)
    | _, _ => none

/-- Decode a cache document: `data.get("complete_dirs", {})` and
`data.get("tmdb_map", {})` with missing keys defaulting to `{}`. -/
def decodeCache : JVal → Option CacheData
  | .jobj fields =>
    match (dictGet? fields ("complete_dirs")).getD (.jobj []),
          (dictGet? fields ("tmdb_map")).getD (.jobj []) with
    | .jobj cdf, .jobj tmf =>
      match decodeFields decodeEntry cdf,
            decodeFields (fun v => match v with | .jint n => some n | _ => none) tmf with
      | some c, some t => some ⟨c, t⟩
      | _, _ => none
    | _, _ => none
  | _ => none

/-- A file's bytes: a JSON document, or bytes on which `json.loads` raises. -/
inductive FileContent where
  | jsonDoc (j : JVal)
  | raw (s : String)
deriving Repr

/-- The filesystem, as path → content. -/
def FS := String → Option FileContent

/-- `CACHE_FILE` (config value `"<base>_cache.json"`). -/
def CACHE_FILE : String := "media_cache.json"

/-- `CACHE_FILE` with suffix replaced by `.bak` (`Path.with_suffix('.bak')`). -/
def CACHE_BAK : String := "media_cache.bak"

/-- Write one file. -/
def fsSet (fs : FS) (p : String) (v : FileContent) : FS :=
  fun q => if q = p then some v else fs q

/-- `save_cache`: atomically replace the cache file with the encoded
record (the temp-file dance nets out to one write). -/
def save_cache (fs : FS) (cache : CacheData) : FS :=
  fsSet fs CACHE_FILE (.jsonDoc (encodeCache cache))

/-- `load_cache`: missing file ⇒ empty record; unparseable file ⇒ the
corrupt bytes are COPIED to the `.bak` path (`shutil.copy2`) — the original
file stays in place — and an empty record is returned; a parsed document is
decoded (a document outside the written shape yields `none`, the uncaught
error path). -/
def load_cache (fs : FS) : Option (FS × CacheData) :=
  match fs CACHE_FILE with
  | none => some (fs, CacheData.create_empty)
  | some (.jsonDoc j) => (decodeCache j).map (fun c => (fs, c))
  | some (.raw s) => some (fsSet fs CACHE_BAK (.raw s), CacheData.create_empty)

/-- `reset_cache`: load, clear `complete_dirs`, save. -/
def reset_cache (fs : FS) : Option FS :=
  (load_cache fs).map (fun r => save_cache r.1 { r.2 with complete_dirs := [] })

/-- The cache mutations the program performs between a mark and a reset. -/
inductive CacheOp where
  | mark (dir_name : String) (tmdb_id : Int) (now : String)
  | addMapping (title : String) (tmdb_id : Int)
  | reset

/-- Whether an operation is the force-recheck reset. -/
def CacheOp.isReset : CacheOp → Bool
  | .reset => true
  | _ => false

/-- Apply one cache operation to the in-memory record (`reset` is the
record-level effect of `reset_cache`). -/
def applyOp (c : CacheData) : CacheOp → CacheData
  | .mark d id now => c.mark_complete_dir d id now
  | .addMapping t id => c.add_tmdb_mapping t id
  | .reset => { c with complete_dirs := [] }

/-! ## Remediation dispatcher (src/media_manager/moviepilot.py)

HTTP calls are inputs: `MPResp` is one HTTP response of the automation
service and `Nat → MPResp` the response to the n-th request of a call;
`Nat → Bool` gives the outcome of the n-th re-login.  `create_subscribe`
and `add_download_task` recurse on themselves after a successful re-login
on HTTP 401, so they are embedded with a fuel argument; `none` means the
fuel ran out, i.e. the call had still not returned after that many
attempts. -/

/-- One response of the automation service to a POST. -/
inductive MPResp where
  | ok200 (success : Bool) (id : Option String)
  | status401
  | statusOther (code : Nat)
  | exn (msg : String)

/-- `create_subscribe(subscribe_info)`: token pre-check, then POST; on 401
re-login and, if it succeeds, recurse on the whole call. -/
def create_subscribe : Nat → (Nat → MPResp) → (Nat → Bool) → Bool → Nat →
    Option (Bool × Option String)
  | 0, _, _, _, _ => none
  | fuel + 1, resp, loginOk, tokenSet, attempt =>
    if !tokenSet then some (false, none)
    else
      match resp attempt with
      | .ok200 true id => some (true, id)
      | .ok200 false _ => some (false, none)
      | .status401 =>
        if loginOk attempt then create_subscribe fuel resp loginOk true (attempt + 1)
        else some (false, none)
      | .statusOther _ => some (false, none)
      | .exn _ => some (false, none)

/-- `add_download_task(param)`: same control flow as `create_subscribe`. -/
def add_download_task : Nat → (Nat → MPResp) → (Nat → Bool) → Bool → Nat →
    Option (Bool × Option String)
  | 0, _, _, _, _ => none
  | fuel + 1, resp, loginOk, tokenSet, attempt =>
    if !tokenSet then some (false, none)
    else
      match resp attempt with
      | .ok200 true id => some (true, id)
      | .ok200 false _ => some (false, none)
      | .status401 =>
        if loginOk attempt then add_download_task fuel resp loginOk true (attempt + 1)
        else some (false, none)
      | .statusOther _ => some (false, none)
      | .exn _ => some (false, none)

/-- A service that answers 401 to every request. -/
def always401 : Nat → MPResp := fun _ => MPResp.status401

/-- Re-login that always succeeds. -/
def loginAlwaysOk : Nat → Bool := fun _ => true

/-- `MoviePilotResult`; `data` holds the single correlation entry the code
puts in it (`subscribe_id` / `download_id`). -/
structure MoviePilotResult where
  success : Bool
  message : String
  data : Option (String × Option String)
deriving Repr, DecidableEq

/-- Outcome of the inner `await create_subscribe(...)` as seen by
`handle_missing_episodes`: a returned pair, or a raised exception. -/
inductive SubCall where
  | ret (success : Bool) (id : Option String)
  | raise (e : String)

/-- One search result (the fields `handle_missing_episodes` reads). -/
structure MPResource where
  title : String
  rid : String
  site : String
  enclosure : String
deriving Repr, DecidableEq

/-- Outcome of the inner `await search(...)`. -/
inductive SearchCall where
  | ret (ok : Bool) (results : List MPResource)
  | raise (e : String)

/-- Outcome of one inner `await add_download_task(...)`. -/
inductive DlCall where
  | ret (ok : Bool) (id : Option String)
  | raise (e : String)

/-- Result of `handle_missing_episodes`: a `MoviePilotResult`, or an
exception the Python function itself raises to its caller. -/
inductive HMEOut where
  | res (r : MoviePilotResult)
  | pyError (msg : String)
deriving Repr, DecidableEq

/-- Python `f"{n:02d}"` for non-negative n. -/
def pad2 (n : Nat) : String := if n < 10 then "0" ++ toString n else toString n

/-- The `f"S{season:02d}E{ep:02d}"` token. -/
def seTag (season ep : Nat) : String :=
  "S" ++ pad2 season ++ "E" ++ pad2 ep

/-- `\((\d{4})\)` anchored at the head: a parenthesized 4-digit year. -/
def yearAt : List Char → Option Nat
  | '(' :: a :: b :: c :: d :: e :: _ =>
    if isDig a && isDig b && isDig c && isDig d && e = ')' then
      some (dval a * 1000 + dval b * 100 + dval c * 10 + dval d)
    else none
  | _ => none

/-- `extract_year(title)` from helpers.py: leftmost `(dddd)`. -/
def extract_year (title : String) : Option Nat :=
  searchA yearAt title.data

/-- `re.sub(r"\s*\(\d{4}\).*$", "", title)`: truncate at the first position
where optional whitespace is followed by a parenthesized 4-digit year
(modelled for newline-free titles, where `.*$` always reaches the end). -/
def cleanCore : List Char → List Char
  | [] => []
  | c :: rest =>
    if (yearAt ((c :: rest).dropWhile isSpace)).isSome then []
    else c :: cleanCore rest

/-- `clean_title` as computed in `handle_missing_episodes` and
`search_tv_show`. -/
def cleanTitle (t : String) : String := ⟨cleanCore t.data⟩

/-- The download loop of `handle_missing_episodes`: try each search result
in order; a result whose title contains some missing `SxxEyy` token is
submitted as a download task (the `Nat` index counts submissions, selecting
the oracle entry); a failed or raising submission falls through to the next
result. -/
def dlLoop (episodes : List Nat) (season : Nat) (dl : Nat → DlCall) :
    List MPResource → Nat → HMEOut
  | [], _ => .res ⟨false, "未找到合适的资源", none⟩
  | r :: rest, i =>
    if episodes.any (fun ep => containsSub ((seTag season ep).data) r.title.data) then
      match dl i with
      | .ret true id => .res ⟨true, "已添加下载任务: " ++ r.title, some (("download_id"), id)⟩
      | .ret false _ => dlLoop episodes season dl rest (i + 1)
      | .raise _ => dlLoop episodes season dl rest (i + 1)
    else dlLoop episodes season dl rest i

/-- The download phase (`if auto_download and ...` body). -/
def downloadPhase (episodes : List Nat) (season : Nat)
    (srch : SearchCall) (dl : Nat → DlCall) : HMEOut :=
  match srch with
  | .raise e => .res ⟨false, "搜索出错: " ++ e, none⟩
  | .ret ok results =>
    if ok && !results.isEmpty then dlLoop episodes season dl results 0
    else .res ⟨false, "搜索失败", none⟩

/-- `handle_missing_episodes`.  The local variable `success` is modelled by
an `Option Bool` (`none` = never assigned); the guard
`auto_download and (not should_subscribe or (should_subscribe and not success))`
is evaluated with Python's short-circuiting, and reading the unassigned
variable produces the `UnboundLocalError` the interpreter raises. -/
def handle_missing_episodes (show_name : String) (season : Nat)
    (episodes : List Nat) (auto_subscribe auto_download : Bool) (subscribe_threshold : Int)
    (tokenSet loginOk : Bool) (sub : SubCall) (srch : SearchCall) (dl : Nat → DlCall) :
    HMEOut :=
  if !tokenSet && !loginOk then
    .res ⟨false, "MoviePilot登录失败", none⟩
  else
    let clean_title := cleanTitle show_name
    let should_subscribe :=
      auto_subscribe &&
        !(decide (0 < subscribe_threshold) && decide ((episodes.length : Int) ≤ subscribe_threshold))
    if should_subscribe then
      match sub with
      | .ret true id =>
        .res ⟨true, "已订阅 " ++ clean_title ++ " 第" ++ toString season ++ "季",
              some (("subscribe_id"), id)⟩
      | .ret false _ =>
        if !auto_download then .res ⟨false, "订阅失败", none⟩
        else
          -- guard: not should_subscribe = False, should_subscribe and not success
          -- with success = False ⇒ enter the download branch
          downloadPhase episodes season srch dl
      | .raise e =>
        if !auto_download then .res ⟨false, "订阅出错: " ++ e, none⟩
        else
          -- guard reads `success`, which the raised exception left unassigned
          .pyError ("UnboundLocalError: local variable success referenced before assignment")
    else
      if auto_download then downloadPhase episodes season srch dl
      else .res ⟨false, "未执行任何操作", none⟩

/-! ## Catalog search (src/tmdb/api.py, `search_tv_show`)

The HTTP layer is an input: `results` is the decoded, non-error candidate
list of the search endpoint (empty list = `data["results"]` falsy).  A
candidate's `year` field models the `TMDBShow.year` property derived from
`first_air_date`. -/

/-- One TMDB search candidate. -/
structure TMDBShow where
  id : Int
  name : String
  year : Option Int
deriving Repr, DecidableEq

/-- The best-match loop: `best_match = None`, `closest_diff = 9999`, taking
each candidate with a truthy year whose distance strictly improves. -/
def bestLoop (y : Int) : Option TMDBShow → Int → List TMDBShow → Option TMDBShow
  | best, _, [] => best
  | best, closest, s :: l =>
    match s.year with
    | some v =>
      if v ≠ 0 then
        if |v - y| < closest then bestLoop y (some s) |v - y| l
        else bestLoop y best closest l
      else bestLoop y best closest l
    | none => bestLoop y best closest l

/-- `name.split(" (")[0]`: the prefix before the first `" ("`. -/
def beforeParen : List Char → List Char
  | [] => []
  | c :: rest =>
    if (" (".data).isPrefixOf (c :: rest) then []
    else c :: beforeParen rest

/-- `search_tv_show(title, cache)` with the network search results as an
input; returns the `(tmdb_id, tmdb_name)` pair and the updated `tmdb_map`.
A zero year is falsy in Python (`if year:` / `if show.year:`), which the
embedding preserves. -/
def search_tv_show (title : String) (results : List TMDBShow)
    (cache : List (String × Int)) : (Option Int × Option String) × List (String × Int) :=
  match dictGet? cache title with
  | some tmdb_id =>
    let tmdb_name :=
      match cache.find? (fun p => p.2 == tmdb_id && p.1 != title) with
      | some p => String.mk (beforeParen p.1.data)
      | none => title
    ((some tmdb_id, some tmdb_name), cache)
  | none =>
    match results with
    | [] => ((none, none), cache)
    | first :: _ =>
      let pick (s : TMDBShow) : (Option Int × Option String) × List (String × Int) :=
        ((some s.id, some s.name), dictSet cache title s.id)
      match extract_year title with
      | some y0 =>
        if y0 ≠ 0 then
          let y : Int := y0
          match results.find? (fun s => s.year == some y) with
          | some s => pick s
          | none =>
            match results.find? (fun s =>
                match s.year with
                | some v => v != 0 && decide (|v - y| ≤ 1)
                | none => false) with
            | some s => pick s
            | none =>
              match bestLoop y none 9999 results with
              | some s => pick s
              | none => pick first
        else pick first
      | none => pick first

/-- First element minimising `f` (earlier elements win ties). -/
def firstMinBy (f : α → Int) : List α → Option α
  | [] => none
  | a :: l =>
    match firstMinBy f l with
    | none => some a
    | some b => if f a ≤ f b then some a else some b

/-- The candidates carrying a year, paired with it. -/
def withYears (results : List TMDBShow) : List (TMDBShow × Int) :=
  results.filterMap (fun s => s.year.map (fun v => (s, v)))

/-- The selection policy as the specification words it: (a) exact year
match, else (b) year within ±1, else (c) with a year supplied, the
candidate with minimal absolute year difference, else (d) the first
result. -/
def specSelect (yr : Option Int) (results : List TMDBShow) : Option TMDBShow :=
  match results with
  | [] => none
  | first :: _ =>
    match yr with
    | none => some first
    | some y =>
      match results.find? (fun s => s.year == some y) with
      | some s => some s
      | none =>
        match results.find? (fun s =>
            match s.year with
            | some v => decide (|v - y| ≤ 1)
            | none => false) with
        | some s => some s
        | none =>
          match firstMinBy (fun p => |p.2 - y|) (withYears results) with
          | some p => some p.1
          | none => some first

/-- The optional extracted year as a Python int. -/
def yearToInt : Option Nat → Option Int
  | none => none
  | some n => some (n : Int)

/-! ## Concrete instances used to exercise the embedding -/

/-- An empty filesystem. -/
def emptyFS : FS := fun _ => none

/-- A filesystem whose cache file holds bytes that are not valid JSON. -/
def corruptFS : FS := fsSet emptyFS CACHE_FILE (.raw ("not json"))

/-- Two search candidates whose years are 2020 and 1900. -/
def demoResults : List TMDBShow :=
  [⟨1, "A", some 2020⟩, ⟨2, "B", some 1900⟩]

/-! ## Helper lemmas -/

theorem lastComp_idem (l : List Char) : lastComp (lastComp l) = lastComp l := by
  unfold lastComp
  rw [List.reverse_reverse, List.takeWhile_idem]

theorem decodeEntry_encodeEntry (e : CompleteEntry) : decodeEntry (encodeEntry e) = some e := rfl

theorem decodeFields_entries (l : List (String × CompleteEntry)) :
    decodeFields decodeEntry (l.map (fun p => (p.1, encodeEntry p.2))) = some l := by
  induction l with
  | nil => rfl
  | cons p rest ih => simp [decodeFields, decodeEntry_encodeEntry, ih]

theorem decodeFields_ints (l : List (String × Int)) :
    decodeFields (fun v => match v with | .jint n => some n | _ => none)
      (l.map (fun p => (p.1, JVal.jint p.2))) = some l := by
  induction l with
  | nil => rfl
  | cons p rest ih => simp [decodeFields, ih]

theorem decodeCache_encodeCache (c : CacheData) : decodeCache (encodeCache c) = some c := by
  cases c with
  | mk cd tm =>
    simp [encodeCache, decodeCache, dictGet?, List.find?, decodeFields_entries, decodeFields_ints]

theorem load_save_roundtrip (fs : FS) (c : CacheData) :
    load_cache (save_cache fs c) = some (save_cache fs c, c) := by
  have h : (save_cache fs c) CACHE_FILE = some (.jsonDoc (encodeCache c)) := by
    simp [save_cache, fsSet]
  simp [load_cache, h, decodeCache_encodeCache]

/-! ## C10 -/

/-- C10: `parse_filename` depends only on the final `/`-separated component
of its input: for every path and optional known season, parsing the path
and parsing its basename give the same result. -/
theorem parse_filename_basename_only (p : String) (k : Option Nat) :
    parse_filename p k = parse_filename (basename p) k := by
  unfold parse_filename basename
  rw [show (String.mk (lastComp p.data)).data = lastComp p.data from rfl, lastComp_idem]

/-! ## C9 -/

/-- C9 counterexample: the parser does return an episode number of 0 — on
`S01E00.mkv` it returns `(1, 0)` — refuting the claim that every returned
episode is strictly positive. -/
theorem parse_filename_episode_zero :
    ¬ (∀ (p : String) (k : Option Nat) (r : Nat × Nat),
        parse_filename p k = some r → 0 < r.2) := by
  intro h
  have h0 := h ("S01E00.mkv") none (1, 0) (by decide)
  omega

/-- C9 (amended): every coordinate `parse_filename` returns is
component-wise non-negative (episode 0 is possible, e.g. for an `E00`
token, so strict positivity of the episode does not hold). -/
theorem parse_filename_nonneg (p : String) (k : Option Nat) (r : Nat × Nat)
    (h : parse_filename p k = some r) : (0 : Int) ≤ (r.1 : Int) ∧ (0 : Int) ≤ (r.2 : Int) :=
  ⟨Int.ofNat_nonneg _, Int.ofNat_nonneg _⟩

/-- Witness for C9: the amended theorem applied at `S01E02.mkv`. -/
theorem parse_filename_nonneg_witness :
    parse_filename ("S01E02.mkv") none = some (1, 2) ∧
      ((0 : Int) ≤ ((1 : Nat) : Int) ∧ (0 : Int) ≤ ((2 : Nat) : Int)) :=
  ⟨by decide, parse_filename_nonneg ("S01E02.mkv") none (1, 2) (by decide)⟩

/-! ## C3 -/

/-- C3 counterexample: on a cache file holding invalid JSON, `load_cache`
returns the empty record and writes the backup, but the corrupt file is
NOT discarded from its original path — after the call the original path
still holds the corrupt bytes (`shutil.copy2` copies; it does not move). -/
theorem load_cache_keeps_corrupt_file :
    load_cache corruptFS =
        some (fsSet corruptFS CACHE_BAK (.raw ("not json")), CacheData.create_empty)
      ∧ (fsSet corruptFS CACHE_BAK (.raw ("not json"))) CACHE_FILE
          = some (.raw ("not json")) :=
  ⟨rfl, rfl⟩

/-- C3 (amended): when the cache file exists but its content is not valid
JSON, `load_cache` returns an empty record without raising, and backs the
corrupt file up by suffix-COPY: the backup holds the original bytes while
the corrupt file remains unchanged at its original path. -/
theorem load_cache_corrupt_backs_up (fs : FS) (s : String)
    (h : fs CACHE_FILE = some (.raw s)) :
    load_cache fs = some (fsSet fs CACHE_BAK (.raw s), CacheData.create_empty)
      ∧ (fsSet fs CACHE_BAK (.raw s)) CACHE_BAK = some (.raw s)
      ∧ (fsSet fs CACHE_BAK (.raw s)) CACHE_FILE = fs CACHE_FILE := by
  have hne : CACHE_FILE ≠ CACHE_BAK := by decide
  refine ⟨by simp [load_cache, h], by simp [fsSet], by simp [fsSet, hne]⟩

/-- Witness for C3: the amended theorem applied to the corrupt filesystem. -/
theorem load_cache_corrupt_backs_up_witness :
    load_cache corruptFS =
        some (fsSet corruptFS CACHE_BAK (.raw ("not json")), CacheData.create_empty)
      ∧ (fsSet corruptFS CACHE_BAK (.raw ("not json"))) CACHE_BAK
          = some (.raw ("not json"))
      ∧ (fsSet corruptFS CACHE_BAK (.raw ("not json"))) CACHE_FILE
          = corruptFS CACHE_FILE :=
  load_cache_corrupt_backs_up corruptFS ("not json") rfl

/-! ## C8 -/

/-- C8: saving any cache record and loading it back succeeds and yields a
record whose `complete_dirs` and `tmdb_map` are exactly those saved (in
particular equal as maps, independent of key order). -/
theorem save_then_load_roundtrip (fs : FS) (c : CacheData) :
    load_cache (save_cache fs c) = some (save_cache fs c, c) :=
  load_save_roundtrip fs c

/-! ## C4 -/

/-- C4 counterexample: against a service that answers 401 to every request
while every re-login succeeds, `create_subscribe` and `add_download_task`
have still not surfaced failure after 10 attempts — under the claim they
would have failed after the single allowed re-login-and-retry. -/
theorem retry_not_single :
    create_subscribe 10 always401 loginAlwaysOk true 0 = none
      ∧ add_download_task 10 always401 loginAlwaysOk true 0 = none :=
  ⟨rfl, rfl⟩

/-- C4 (amended): on an authorization-expired (401) response the dispatcher
re-logins and retries the whole call recursively with NO retry bound: if
the service keeps answering 401 and every re-login succeeds, neither
`create_subscribe` nor `add_download_task` ever returns, at any fuel. -/
theorem retry_unbounded_on_persistent_401 :
    (∀ fuel, create_subscribe fuel always401 loginAlwaysOk true 0 = none)
      ∧ (∀ fuel, add_download_task fuel always401 loginAlwaysOk true 0 = none) := by
  have h1 : ∀ fuel attempt, create_subscribe fuel always401 loginAlwaysOk true attempt = none := by
    intro fuel
    induction fuel with
    | zero => intro attempt; rfl
    | succ n ih => intro attempt; simpa [create_subscribe, always401, loginAlwaysOk] using ih (attempt + 1)
  have h2 : ∀ fuel attempt, add_download_task fuel always401 loginAlwaysOk true attempt = none := by
    intro fuel
    induction fuel with
    | zero => intro attempt; rfl
    | succ n ih => intro attempt; simpa [add_download_task, always401, loginAlwaysOk] using ih (attempt + 1)
  exact ⟨fun fuel => h1 fuel 0, fun fuel => h2 fuel 0⟩

/-! ## C5 -/

/-- C5: with auto-subscribe and auto-download both enabled, a subscribe
attempt that fails by RAISING makes `handle_missing_episodes` raise
`UnboundLocalError` (the guard reads the never-assigned local `success`)
instead of falling through to the download attempt, while the same failure
reported by a `False` return does fall through and download. -/
theorem handle_missing_unbound_success :
    handle_missing_episodes ("Show (2020)") 2 [5] true true 0 true true
        (.raise ("boom")) (.ret true [⟨"Show S02E05 1080p", "1", "s", "e"⟩])
        (fun _ => .ret true (some ("d1")))
      = .pyError ("UnboundLocalError: local variable success referenced before assignment")
    ∧ handle_missing_episodes ("Show (2020)") 2 [5] true true 0 true true
        (.ret false none) (.ret true [⟨"Show S02E05 1080p", "1", "s", "e"⟩])
        (fun _ => .ret true (some ("d1")))
      = .res ⟨true, "已添加下载任务: Show S02E05 1080p", some (("download_id"), some ("d1"))⟩ :=
  ⟨rfl, rfl⟩

/-! ## C7 -/

theorem any_dictSet_self {α : Type} (l : List (String × α)) (d : String) (v : α) :
    (dictSet l d v).any (fun p => p.1 == d) = true := by
  by_cases hd : l.any (fun p => p.1 == d) = true
  · simp only [dictSet, hd, if_true, List.any_map]
    obtain ⟨p, hp, hpd⟩ := List.any_eq_true.mp hd
    exact List.any_eq_true.mpr ⟨p, hp, by simp [Function.comp, hpd]⟩
  · simp only [dictSet, hd, if_false, List.any_append]
    simp

theorem any_dictSet_mono {α : Type} (l : List (String × α)) (k d : String) (v : α)
    (h : l.any (fun p => p.1 == d) = true) :
    (dictSet l k v).any (fun p => p.1 == d) = true := by
  by_cases hk : l.any (fun p => p.1 == k) = true
  · simp only [dictSet, hk, if_true, List.any_map]
    obtain ⟨p, hp, hpd⟩ := List.any_eq_true.mp h
    refine List.any_eq_true.mpr ⟨p, hp, ?_⟩
    by_cases hpk : (p.1 == k) = true
    · have h1 : p.1 = d := by simpa using hpd
      have h2 : p.1 = k := by simpa using hpk
      simp [Function.comp, hpk, ← h2, h1]
    · simp [Function.comp, hpk, hpd]
  · simp only [dictSet, hk, if_false, List.any_append]
    simp [h]

theorem foldl_preserves_complete (d : String) :
    ∀ (ops : List CacheOp) (c : CacheData),
      (∀ op ∈ ops, op.isReset = false) → c.is_complete_dir d = true →
      ((ops.foldl applyOp c).is_complete_dir d) = true := by
  intro ops
  induction ops with
  | nil => intro c _ h; simpa using h
  | cons op rest ih =>
    intro c hops h
    rw [List.foldl_cons]
    refine ih (applyOp c op) (fun o ho => hops o (List.mem_cons_of_mem _ ho)) ?_
    cases op with
    | mark d2 id now =>
      simp only [applyOp, CacheData.mark_complete_dir, CacheData.is_complete_dir] at h ⊢
      exact any_dictSet_mono _ _ _ _ h
    | addMapping t id =>
      simpa [applyOp, CacheData.add_tmdb_mapping, CacheData.is_complete_dir] using h
    | reset =>
      exact absurd (hops _ (List.mem_cons_self _ _)) (by simp [CacheOp.isReset])

/-- C7: after `mark_complete_dir`, every later `is_complete_dir` query for
that show answers true across any sequence of non-reset cache operations;
the reset clears completeness for every show while leaving `tmdb_map`
untouched — and at the filesystem level, resetting a saved record and
loading it back yields empty `complete_dirs` with the original
`tmdb_map`. -/
theorem mark_complete_until_reset :
    (∀ (c : CacheData) (d : String) (id : Int) (now : String) (ops : List CacheOp),
        (∀ op ∈ ops, op.isReset = false) →
        ((ops.foldl applyOp (c.mark_complete_dir d id now)).is_complete_dir d) = true)
      ∧ (∀ (c : CacheData) (d : String), ((applyOp c CacheOp.reset).is_complete_dir d) = false)
      ∧ (∀ c : CacheData, (applyOp c CacheOp.reset).tmdb_map = c.tmdb_map)
      ∧ (∀ (fs : FS) (c : CacheData),
          ((reset_cache (save_cache fs c)).bind load_cache).map (fun r => r.2)
            = some ⟨[], c.tmdb_map⟩) := by
  refine ⟨?_, ?_, ?_, ?_⟩
  · intro c d id now ops hops
    refine foldl_preserves_complete d ops _ hops ?_
    simp only [CacheData.mark_complete_dir, CacheData.is_complete_dir]
    exact any_dictSet_self _ _ _
  · intro c d; rfl
  · intro c; rfl
  · intro fs c
    simp [reset_cache, load_save_roundtrip]

/-- Witness for C7: a mark followed by a non-reset operation still reports
the show complete. -/
theorem mark_complete_until_reset_witness :
    ((([CacheOp.addMapping ("T") 9]).foldl applyOp
        ((CacheData.create_empty).mark_complete_dir ("A") 5 ("ts"))).is_complete_dir ("A"))
      = true :=
  mark_complete_until_reset.1 CacheData.create_empty ("A") 5 ("ts")
    ([CacheOp.addMapping ("T") 9]) (by decide)

/-! ## C2 -/

theorem mem_sortedDiff (canon localE : List Nat) (x : Nat) :
    x ∈ sortedDiff canon localE ↔ (x ∈ canon ∧ x ∉ localE) := by
  unfold sortedDiff
  rw [List.mem_insertionSort, List.mem_filter, List.mem_dedup]
  simp [List.elem_iff]

theorem sortedDiff_sorted (canon localE : List Nat) :
    List.Sorted (· < ·) (sortedDiff canon localE) := by
  refine (List.sorted_insertionSort _ _).lt_of_le ?_
  refine (List.perm_insertionSort _ _).nodup_iff.mpr ?_
  exact (List.nodup_dedup canon).filter _

theorem sortedDiff_eq_nil_iff (canon localE : List Nat) :
    sortedDiff canon localE = [] ↔ ∀ x ∈ canon, x ∈ localE := by
  rw [List.eq_nil_iff_forall_not_mem]
  simp only [mem_sortedDiff, not_and, not_not]

/-- C2: the computed missing set is empty iff every canonical season's
episode set is contained in the local inventory; every produced entry is
the non-empty, strictly sorted set difference of a canonical season against
the local episodes; every canonical season with a non-empty difference is
produced; only canonical seasons are produced (local-only seasons are
ignored); and a season absent from the local inventory contributes exactly
its canonical episode set. -/
theorem missing_diff_spec (canonical localI : List (Nat × List Nat)) :
    (computeMissing canonical localI = [] ↔
        ∀ p ∈ canonical, ∀ e ∈ p.2, e ∈ lookupEps localI p.1)
      ∧ (∀ s d, (s, d) ∈ computeMissing canonical localI →
          d ≠ [] ∧ List.Sorted (· < ·) d ∧
            ∃ eps, (s, eps) ∈ canonical ∧
              ∀ e, (e ∈ d ↔ (e ∈ eps ∧ e ∉ lookupEps localI s)))
      ∧ (∀ p ∈ canonical, (∃ e ∈ p.2, e ∉ lookupEps localI p.1) →
          (p.1, sortedDiff p.2 (lookupEps localI p.1)) ∈ computeMissing canonical localI)
      ∧ (∀ s d, (s, d) ∈ computeMissing canonical localI → s ∈ canonical.map Prod.fst)
      ∧ (∀ p ∈ canonical, localI.find? (fun q => q.1 == p.1) = none → p.2 ≠ [] →
          ∃ d, (p.1, d) ∈ computeMissing canonical localI ∧ ∀ e, (e ∈ d ↔ e ∈ p.2)) := by
  have hmem : ∀ s d, (s, d) ∈ computeMissing canonical localI ↔
      ∃ p ∈ canonical, p.1 = s ∧ d = sortedDiff p.2 (lookupEps localI p.1) ∧
        sortedDiff p.2 (lookupEps localI p.1) ≠ [] := by
    intro s d
    unfold computeMissing
    rw [List.mem_filterMap]
    constructor
    · rintro ⟨p, hp, hpd⟩
      by_cases hz : sortedDiff p.2 (lookupEps localI p.1) = []
      · simp [hz] at hpd
      · simp only [hz, if_neg, if_false] at hpd
        obtain ⟨h1, h2⟩ := Prod.mk.injEq .. ▸ (Option.some_inj.mp hpd)
        exact ⟨p, hp, h1, h2.symm, hz⟩
    · rintro ⟨p, hp, h1, h2, hz⟩
      refine ⟨p, hp, ?_⟩
      subst h1
      subst h2
      simp [hz]
  refine ⟨?_, ?_, ?_, ?_, ?_⟩
  · unfold computeMissing
    rw [List.filterMap_eq_nil_iff]
    constructor
    · intro h p hp e he
      have hp2 := h p hp
      by_cases hz : sortedDiff p.2 (lookupEps localI p.1) = []
      · exact (sortedDiff_eq_nil_iff _ _).mp hz e he
      · simp [hz] at hp2
    · intro h p hp
      have hz : sortedDiff p.2 (lookupEps localI p.1) = [] :=
        (sortedDiff_eq_nil_iff _ _).mpr (h p hp)
      simp [hz]
  · intro s d hd
    obtain ⟨p, hp, h1, h2, hz⟩ := (hmem s d).mp hd
    subst h1
    subst h2
    exact ⟨hz, sortedDiff_sorted _ _, p.2, by simpa using hp, fun e => mem_sortedDiff _ _ _⟩
  · intro p hp ⟨e, he, hne⟩
    refine (hmem p.1 _).mpr ⟨p, hp, rfl, rfl, ?_⟩
    exact List.ne_nil_of_mem ((mem_sortedDiff _ _ _).mpr ⟨he, hne⟩)
  · intro s d hd
    obtain ⟨p, hp, h1, _, _⟩ := (hmem s d).mp hd
    exact h1 ▸ List.mem_map_of_mem Prod.fst hp
  · intro p hp hfind hne
    have hlook : lookupEps localI p.1 = [] := by simp [lookupEps, hfind]
    obtain ⟨e, he⟩ := List.exists_mem_of_ne_nil _ hne
    refine ⟨sortedDiff p.2 (lookupEps localI p.1),
      (hmem p.1 _).mpr ⟨p, hp, rfl, rfl, ?_⟩, ?_⟩
    · refine List.ne_nil_of_mem ((mem_sortedDiff _ _ _).mpr ⟨he, ?_⟩)
      simp [hlook]
    · intro x
      rw [mem_sortedDiff, hlook]
      simp

/-- Witness for C2: the theorem's emptiness criterion applied to a complete
inventory. -/
theorem missing_diff_spec_witness :
    computeMissing [(1, [1, 2])] [(1, [1, 2])] = [] :=
  (missing_diff_spec [(1, [1, 2])] [(1, [1, 2])]).1.mpr (by decide)

/-! ## C6 -/

theorem firstMinBy_mem {α : Type} (f : α → Int) :
    ∀ (l : List α) (a : α), firstMinBy f l = some a → a ∈ l := by
  intro l
  induction l with
  | nil => intro a h; simp [firstMinBy] at h
  | cons x rest ih =>
    intro a h
    cases hr : firstMinBy f rest with
    | none =>
      have hx : firstMinBy f (x :: rest) = some x := by simp [firstMinBy, hr]
      rw [hx] at h
      simp only [Option.some_inj] at h
      exact h ▸ List.mem_cons_self _ _
    | some b =>
      by_cases hle : f x ≤ f b
      · have hx : firstMinBy f (x :: rest) = some x := by simp [firstMinBy, hr, hle]
        rw [hx] at h
        simp only [Option.some_inj] at h
        exact h ▸ List.mem_cons_self _ _
      · have hx : firstMinBy f (x :: rest) = some b := by simp [firstMinBy, hr, hle]
        rw [hx] at h
        simp only [Option.some_inj] at h
        exact h ▸ List.mem_cons_of_mem _ (ih b hr)

theorem withYears_mem (results : List TMDBShow) (p : TMDBShow × Int) :
    p ∈ withYears results ↔ p.1 ∈ results ∧ p.1.year = some p.2 := by
  unfold withYears
  rw [List.mem_filterMap]
  constructor
  · rintro ⟨s, hs, hmap⟩
    cases hy : s.year with
    | none =>
      rw [hy] at hmap
      exact absurd hmap (by simp)
    | some v =>
      rw [hy] at hmap
      have hp : (s, v) = p := by simpa using hmap
      subst hp
      exact ⟨hs, hy⟩
  · rintro ⟨h1, h2⟩
    exact ⟨p.1, h1, by simp [h2]⟩

theorem find?_congr_pred {α : Type} (p q : α → Bool) :
    ∀ l : List α, (∀ x ∈ l, p x = q x) → l.find? p = l.find? q := by
  intro l
  induction l with
  | nil => intro _; rfl
  | cons x rest ih =>
    intro h
    have hx := h x (List.mem_cons_self _ _)
    rw [List.find?_cons, List.find?_cons, hx, ih (fun y hy => h y (List.mem_cons_of_mem _ hy))]

theorem bestLoop_eq (y : Int) :
    ∀ (l : List TMDBShow) (best : Option TMDBShow) (closest : Int),
      (∀ s ∈ l, ∀ v, s.year = some v → v ≠ 0) →
      bestLoop y best closest l =
        (match firstMinBy (fun p => |p.2 - y|) (withYears l) with
          | some w => if |w.2 - y| < closest then some w.1 else best
          | none => best) := by
  intro l
  induction l with
  | nil => intro best closest _; rfl
  | cons s rest ih =>
    intro best closest h
    have hrest : ∀ t ∈ rest, ∀ v, t.year = some v → v ≠ 0 :=
      fun t ht => h t (List.mem_cons_of_mem _ ht)
    cases hy : s.year with
    | none =>
      have hw : withYears (s :: rest) = withYears rest := by simp [withYears, hy]
      have hstep : bestLoop y best closest (s :: rest) = bestLoop y best closest rest := by
        simp [bestLoop, hy]
      rw [hstep, ih best closest hrest, hw]
    | some v =>
      have hv : v ≠ 0 := h s (List.mem_cons_self _ _) v hy
      have hw : withYears (s :: rest) = (s, v) :: withYears rest := by simp [withYears, hy]
      have hstep : bestLoop y best closest (s :: rest) =
          if |v - y| < closest then bestLoop y (some s) |v - y| rest
          else bestLoop y best closest rest := by
        simp [bestLoop, hy, hv]
      rw [hstep, hw]
      cases hfm : firstMinBy (fun p => |p.2 - y|) (withYears rest) with
      | none =>
        have hhead : firstMinBy (fun p => |p.2 - y|) ((s, v) :: withYears rest) = some (s, v) := by
          simp [firstMinBy, hfm]
        rw [hhead]
        by_cases hlt : |v - y| < closest
        · rw [if_pos hlt, ih (some s) |v - y| hrest, hfm]
          simp [hlt]
        · rw [if_neg hlt, ih best closest hrest, hfm]
          simp [hlt]
      | some b =>
        by_cases hab : |v - y| ≤ |b.2 - y|
        · have hhead : firstMinBy (fun p => |p.2 - y|) ((s, v) :: withYears rest) = some (s, v) := by
            simp [firstMinBy, hfm, hab]
          rw [hhead]
          by_cases hlt : |v - y| < closest
          · rw [if_pos hlt, ih (some s) |v - y| hrest, hfm]
            have hnb : ¬ |b.2 - y| < |v - y| := by linarith
            simp [hnb, hlt]
          · rw [if_neg hlt, ih best closest hrest, hfm]
            have hnb : ¬ |b.2 - y| < closest := by
              simp only [not_lt] at hlt ⊢
              linarith
            simp [hnb, hlt]
        · have hb : |b.2 - y| < |v - y| := by linarith
          have hhead : firstMinBy (fun p => |p.2 - y|) ((s, v) :: withYears rest) = some b := by
            simp [firstMinBy, hfm, hab]
          rw [hhead]
          by_cases hlt : |v - y| < closest
          · rw [if_pos hlt, ih (some s) |v - y| hrest, hfm]
            have h3 : |b.2 - y| < closest := by linarith
            simp [hb, h3]
          · rw [if_neg hlt, ih best closest hrest, hfm]

/-- C6 (amended): on a cache miss with a non-empty result list, PROVIDED
the extracted year is nonzero when present (a zero year such as `(0000)`
is falsy and is treated as absent), every candidate year is nonzero, and
every candidate year differs from the extracted year by less than 9999
(the loop's initial `closest_diff`), `search_tv_show` picks exactly the
candidate of the spec's selection policy — (a) exact year match, else
(b) year within ±1, else (c) minimal absolute year difference among
candidates with a year, else (d) the first result — and writes the winning
candidate's ID into the cache under the original year-bearing title key. -/
theorem search_tv_show_selection (title : String) (results : List TMDBShow)
    (cache : List (String × Int))
    (hmiss : dictGet? cache title = none)
    (hne : results ≠ [])
    (hok : (extract_year title).all (fun y0 : Nat => decide (y0 ≠ 0) &&
             results.all (fun s => s.year.all (fun v =>
               decide (v ≠ 0) && decide (|v - (y0 : Int)| < 9999)))) = true) :
    ∃ w, specSelect (yearToInt (extract_year title)) results = some w ∧
      search_tv_show title results cache =
        ((some w.id, some w.name), dictSet cache title w.id) := by
  obtain ⟨first, rest, rfl⟩ := List.exists_cons_of_ne_nil hne
  cases hyy : extract_year title with
  | none =>
    refine ⟨first, by simp [specSelect, yearToInt, hyy], ?_⟩
    simp [search_tv_show, hmiss, hyy]
  | some y0 =>
    rw [hyy] at hok
    have hok2 : (decide (y0 ≠ 0) && (first :: rest).all (fun s => s.year.all (fun v =>
        decide (v ≠ 0) && decide (|v - (y0 : Int)| < 9999)))) = true := hok
    rw [Bool.and_eq_true] at hok2
    obtain ⟨ha, hb⟩ := hok2
    have hy0 : y0 ≠ 0 := by simpa using ha
    have hall := List.all_eq_true.mp hb
    have hcands : ∀ s ∈ first :: rest, ∀ v, s.year = some v → v ≠ 0 ∧ |v - (y0 : Int)| < 9999 := by
      intro s hs v hv
      have h4 := hall s hs
      rw [hv] at h4
      have h5 : (decide (v ≠ 0) && decide (|v - (y0 : Int)| < 9999)) = true := h4
      simpa using h5
    have hyears : ∀ s ∈ first :: rest, ∀ v, s.year = some v → v ≠ 0 :=
      fun s hs v hv => (hcands s hs v hv).1
    have hfind : (first :: rest).find? (fun s =>
          match s.year with
          | some v => v != 0 && decide (|v - (y0 : Int)| ≤ 1)
          | none => false)
        = (first :: rest).find? (fun s =>
          match s.year with
          | some v => decide (|v - (y0 : Int)| ≤ 1)
          | none => false) := by
      refine find?_congr_pred _ _ _ ?_
      intro x hx
      cases hx2 : x.year with
      | none => simp
      | some v =>
        have hv := (hcands x hx v hx2).1
        simp [hv]
    simp only [search_tv_show, specSelect, yearToInt, hmiss, hyy, hy0, ne_eq,
      not_false_eq_true, if_true, ite_true]
    rw [hfind]
    cases h1 : (first :: rest).find? (fun s => s.year == some ((y0 : Int))) with
    | some s => exact ⟨s, rfl, rfl⟩
    | none =>
      cases h2 : (first :: rest).find? (fun s =>
          match s.year with
          | some v => decide (|v - (y0 : Int)| ≤ 1)
          | none => false) with
      | some s => exact ⟨s, rfl, rfl⟩
      | none =>
        rw [bestLoop_eq ((y0 : Int)) (first :: rest) none 9999 hyears]
        cases h3 : firstMinBy (fun p => |p.2 - (y0 : Int)|) (withYears (first :: rest)) with
        | some w =>
          have hw := (withYears_mem _ _).mp (firstMinBy_mem _ _ _ h3)
          have hbw : |w.2 - (y0 : Int)| < 9999 := (hcands w.1 hw.1 w.2 hw.2).2
          exact ⟨w.1, by simp, by simp [hbw]⟩
        | none => exact ⟨first, rfl, rfl⟩

/-- C6 counterexample: on title `Foo (0000)` a year (0) IS extracted, yet
the code returns the FIRST result (id 1) and not the candidate with
minimal absolute year difference (id 2) that the claimed policy selects:
Python treats the zero year as falsy and skips the year-matching steps. -/
theorem search_first_despite_year :
    extract_year ("Foo (0000)") = some 0
      ∧ specSelect (some 0) demoResults = some ⟨2, "B", some 1900⟩
      ∧ (search_tv_show ("Foo (0000)") demoResults []).1.1 = some 1 :=
  ⟨rfl, by decide, rfl⟩

/-- Witness for C6: the amended theorem applied to a one-candidate search
within ±1 of the extracted year. -/
theorem search_tv_show_selection_witness :
    ∃ w, specSelect (yearToInt (extract_year ("X (2020)")))
          [⟨5, "A", some 2019⟩] = some w ∧
      search_tv_show ("X (2020)") [⟨5, "A", some 2019⟩] [] =
        ((some w.id, some w.name), dictSet [] ("X (2020)") w.id) :=
  search_tv_show_selection ("X (2020)") [⟨5, "A", some 2019⟩] [] rfl
    (by decide) (by decide)

/-! ## C1 -/

theorem searchA_append {α : Type} (f : List Char → Option α) :
    ∀ (pre rest : List Char),
      (∀ j, j < pre.length → f ((pre ++ rest).drop j) = none) →
      searchA f (pre ++ rest) = searchA f rest := by
  intro pre
  induction pre with
  | nil => intro rest _; rfl
  | cons c pre ih =>
    intro rest h
    have h0 : f (c :: (pre ++ rest)) = none := by
      have := h 0 (by simp)
      simpa using this
    have hstep : searchA f ((c :: pre) ++ rest) = searchA f (pre ++ rest) := by
      rw [List.cons_append]
      simp [searchA, h0]
    rw [hstep]
    refine ih rest ?_
    intro j hj
    have := h (j + 1) (by simpa using Nat.succ_lt_succ hj)
    simpa using this

theorem grab2_of_eds (eds suf : List Char) (h1 : eds ≠ []) (h2 : eds.length ≤ 2)
    (h3 : ∀ c ∈ eds, isDig c = true)
    (h4 : eds.length = 2 ∨ (∀ c, suf.head? = some c → isDig c = false)) :
    grab2 (eds ++ suf) = some (digitsVal eds) := by
  match eds, h1 with
  | [a], _ =>
    have ha := h3 a (List.mem_singleton_self a)
    cases suf with
    | nil => simp [grab2, ha, digitsVal]
    | cons c0 s =>
      have hc : isDig c0 = false := (h4.resolve_left (by simp)) c0 rfl
      simp [grab2, ha, hc, digitsVal]
  | [a, b], _ =>
    have ha := h3 a (by simp)
    have hb := h3 b (by simp)
    simp [grab2, ha, hb, digitsVal]
  | a :: b :: c :: t, _ =>
    exfalso
    simp at h2

theorem isE_not_dig (ec : Char) (hec : isE ec = true) : isDig ec = false := by
  rcases (by simpa [isE] using hec : ec = 'e' ∨ ec = 'E') with h | h <;>
    simp [h, isDig]

theorem p1At_token (sc ec : Char) (sds eds suf : List Char)
    (hsc : isS sc = true) (hec : isE ec = true)
    (hsd1 : sds ≠ []) (hsd2 : sds.length ≤ 2) (hsd3 : ∀ c ∈ sds, isDig c = true)
    (hed1 : eds ≠ []) (hed2 : eds.length ≤ 2) (hed3 : ∀ c ∈ eds, isDig c = true)
    (hsuf : eds.length = 2 ∨ (∀ c, suf.head? = some c → isDig c = false)) :
    p1At (sc :: (sds ++ ec :: (eds ++ suf))) = some (digitsVal sds, digitsVal eds) := by
  have hend : isDig ec = false := isE_not_dig ec hec
  have hgrab := grab2_of_eds eds suf hed1 hed2 hed3 hsuf
  match sds, hsd1 with
  | [a], _ =>
    have ha := hsd3 a (List.mem_singleton_self a)
    simp [p1At, hsc, ha, hend, hec, hgrab, digitsVal]
  | [a, b], _ =>
    have ha := hsd3 a (by simp)
    have hb := hsd3 b (by simp)
    simp [p1At, hsc, ha, hb, hec, hgrab, digitsVal]
  | a :: b :: c :: t, _ =>
    exfalso
    simp at hsd2

/-- C1 (amended): if the final path component decomposes as
`pre ++ S<season>E<episode> ++ suf` with season and episode given by one or
two digits and values in [1, 99], and additionally (i) no earlier position
of the component matches the `S<digits>E<digits>` rule (the regex search is
leftmost, so an earlier match — e.g. a stray `s0e0` — wins) and (ii) the
episode is written with two digits or the suffix does not start with a
digit (a greedy `\d{1,2}` would absorb a following digit), then
`parse_filename` returns exactly that (season, episode) pair, for every
season hint. -/
theorem parse_filename_se_token (p : String) (k : Option Nat)
    (pre sds eds suf : List Char) (sc ec : Char)
    (hbase : lastComp p.data = pre ++ sc :: (sds ++ ec :: (eds ++ suf)))
    (hsc : isS sc = true) (hec : isE ec = true)
    (hsd1 : sds ≠ []) (hsd2 : sds.length ≤ 2) (hsd3 : ∀ c ∈ sds, isDig c = true)
    (hed1 : eds ≠ []) (hed2 : eds.length ≤ 2) (hed3 : ∀ c ∈ eds, isDig c = true)
    (hs99 : 1 ≤ digitsVal sds ∧ digitsVal sds ≤ 99)
    (he99 : 1 ≤ digitsVal eds ∧ digitsVal eds ≤ 99)
    (hleft : ∀ j, j < pre.length →
      p1At ((pre ++ sc :: (sds ++ ec :: (eds ++ suf))).drop j) = none)
    (hsuf : eds.length = 2 ∨ (∀ c, suf.head? = some c → isDig c = false)) :
    parse_filename p k = some (digitsVal sds, digitsVal eds) := by
  unfold parse_filename
  rw [hbase]
  have h1 : searchA p1At (pre ++ sc :: (sds ++ ec :: (eds ++ suf)))
      = some (digitsVal sds, digitsVal eds) := by
    rw [searchA_append p1At pre _ hleft]
    have htok := p1At_token sc ec sds eds suf hsc hec hsd1 hsd2 hsd3 hed1 hed2 hed3 hsuf
    simp [searchA, htok]
  simp [parse_core, h1]

/-- C1 counterexample: `s0e0 S01E02.mkv` contains the valid token `S01E02`
(season 1, episode 2, both in [1, 99]), yet `parse_filename` returns
`(0, 0)`: the surrounding token `s0e0` is an earlier match of the same
top-priority rule, so the leftmost search never reaches `S01E02`. -/
theorem parse_filename_earlier_match_wins :
    containsSub (("S01E02").data) (("s0e0 S01E02.mkv").data) = true
      ∧ parse_filename ("s0e0 S01E02.mkv") none = some (0, 0)
      ∧ parse_filename ("s0e0 S01E02.mkv") none ≠ some (1, 2) := by
  refine ⟨by decide, by decide, by decide⟩

/-- Witness for C1: the amended theorem applied to
`dir/Show.S03E07.mkv`. -/
theorem parse_filename_se_token_witness :
    parse_filename ("dir/Show.S03E07.mkv") none = some (3, 7) :=
  parse_filename_se_token ("dir/Show.S03E07.mkv") none
    (("Show.").data) (['0', '3']) (['0', '7']) ((".mkv").data) 'S' 'E'
    (by decide) (by decide) (by decide) (by decide) (by decide) (by decide)
    (by decide) (by decide) (by decide) (by decide) (by decide) (by decide)
    (by decide)

end MissEp
